import Mathlib

/-!
Shallow embedding of `src/montyhall/montyhall.py`, a Monte Carlo simulator of
the Monty Hall problem built on numpy.

Randomness model: numpy's global RNG is embedded as an abstract stream
`g : ℕ → ℕ` of raw draws together with a cursor position.  A call
`np.random.randint(lo, hi)` at cursor `k` yields `lo + g k % (hi - lo)`,
which is always in `[lo, hi)`; an array call `np.random.randint(lo, hi, n)`
consumes the `n` positions `pos, pos+1, ..., pos+n-1`.  Every possible
realized draw sequence corresponds to some stream, so universally quantified
theorems over `g` cover all RNG behaviours, and a seeded RNG is one fixed `g`.

Python exceptions are embedded as `Except String`.  The mutation order of
`Simulation.sample` mirrors the source: line 36 (`self.samples += n`) runs
before the numpy call on line 39, which raises `ValueError` when `n < 0`
(negative dimensions) and succeeds with empty arrays when `n = 0`.
-/

namespace MontyHall

/-- One scalar draw of `np.random.randint(lo, hi)` from stream `g` at
cursor `k`: a value in `[lo, hi)`. -/
def randint (lo hi : ℕ) (g : ℕ → ℕ) (k : ℕ) : ℕ :=
  lo + g k % (hi - lo)

/-- Array draw `np.random.randint(lo, hi, n)` from stream `g` starting at
cursor `pos`, consuming positions `pos, ..., pos + n - 1`. -/
def randintArr (lo hi : ℕ) (g : ℕ → ℕ) (pos n : ℕ) : List ℕ :=
  (List.range n).map (fun i => randint lo hi g (pos + i))

/-- Line 43: `switch_doors = np.where(winning_doors == 1, host, winning_doors)`
where `host` is the one scalar drawn by `np.random.randint(2, 4)`. -/
def switchDoorsOf (winning_doors : List ℕ) (host : ℕ) : List ℕ :=
  winning_doors.map (fun d => if d = 1 then host else d)

/-- Line 45: `win_if_staying = winning_doors == np.ones(n).astype(int)`. -/
def win_if_staying (winning_doors : List ℕ) : List Bool :=
  winning_doors.map (fun d => decide (d = 1))

/-- Line 46: `win_if_switching = winning_doors == switch_doors`. -/
def win_if_switching (winning_doors switch_doors : List ℕ) : List Bool :=
  (winning_doors.zip switch_doors).map (fun p => decide (p.1 = p.2))

/-- The accumulator state of class `Simulation` (lines 26, 30, 31).  The
array attributes set in `__init__` (lines 27-29) are never read or updated
by any method, so they are not part of the state.  `samples` is an `ℤ`
because `self.samples += n` is executed for negative `n` too. -/
structure Simulation where
  samples : ℤ
  num_wins_if_staying : ℕ
  num_wins_if_switching : ℕ
  deriving Repr, DecidableEq

/-- `Simulation.__init__` (lines 23-31): all counters start at zero. -/
def Simulation.init : Simulation :=
  { samples := 0, num_wins_if_staying := 0, num_wins_if_switching := 0 }

/-- The batch generation of `sample` (lines 39-46): draw `n` winning doors
uniformly from `[1,4)` at cursor `pos`, then one unconditional scalar host
draw from `[2,4)` at cursor `pos + n`, and build the two outcome arrays.
Returns `(win_if_staying, win_if_switching)`. -/
def sampleBatch (g : ℕ → ℕ) (pos n : ℕ) : List Bool × List Bool :=
  (win_if_staying (randintArr 1 4 g pos n),
   win_if_switching (randintArr 1 4 g pos n)
     (switchDoorsOf (randintArr 1 4 g pos n) (randint 2 4 g (pos + n))))

/-- The accumulation effect of one batch (lines 36, 48, 49) on the counters:
`samples` grows by the batch length and each win counter by the number of
`True` entries of its outcome array. -/
def Simulation.fold (sim : Simulation) (stay sw : List Bool) : Simulation :=
  { samples := sim.samples + stay.length
    num_wins_if_staying := sim.num_wins_if_staying + stay.count true
    num_wins_if_switching := sim.num_wins_if_switching + sw.count true }

/-- `Simulation.sample` (lines 33-49).  Returns the state after the call, the
new RNG cursor, and either the generated batch or the numpy error.  Line 36
mutates `samples` before line 39 runs, so a failing call (negative `n`)
still returns the mutated `samples`; `n = 0` succeeds with empty arrays. -/
def Simulation.sample (sim : Simulation) (g : ℕ → ℕ) (pos : ℕ) (n : ℤ) :
    Simulation × ℕ × Except String (List Bool × List Bool) :=
  if n < 0 then
    ({ sim with samples := sim.samples + n }, pos,
      Except.error "numpy ValueError: negative dimensions are not allowed")
  else
    ({ samples := sim.samples + n
       num_wins_if_staying :=
         sim.num_wins_if_staying + (sampleBatch g pos n.toNat).1.count true
       num_wins_if_switching :=
         sim.num_wins_if_switching + (sampleBatch g pos n.toNat).2.count true },
     pos + n.toNat + 1, Except.ok (sampleBatch g pos n.toNat))

/-- A sequence of `sample` calls threading the simulation state and the RNG
cursor through one shared stream. -/
def runSamples (g : ℕ → ℕ) : Simulation × ℕ → List ℤ → Simulation × ℕ
  | sp, [] => sp
  | (sim, pos), n :: ns =>
      runSamples g ((sim.sample g pos n).1, (sim.sample g pos n).2.1) ns

/-- `Simulation.plot_results` (lines 51-58): renders only when `samples > 0`,
otherwise raises `Exception` explicitly.  The matplotlib call itself is
presentation-layer output with no effect on the state. -/
def Simulation.plot_results (sim : Simulation) : Except String Unit :=
  if sim.samples > 0 then Except.ok ()
  else Except.error "No results to plot. Must sample first."

/-- The stay-win probability derived in `__main__` (line 69):
`num_wins_if_staying / samples` (before the `* 100` formatting). -/
def Simulation.stay_win_probability (sim : Simulation) : ℚ :=
  (sim.num_wins_if_staying : ℚ) / (sim.samples : ℚ)

/-- The switch-win probability derived in `__main__` (line 70):
`num_wins_if_switching / samples` (before the `* 100` formatting). -/
def Simulation.switch_win_probability (sim : Simulation) : ℚ :=
  (sim.num_wins_if_switching : ℚ) / (sim.samples : ℚ)

/-- Whether an embedded Python call returned normally. -/
def exceptOk {α : Type} : Except String α → Bool
  | Except.ok _ => true
  | Except.error _ => false

lemma length_randintArr (lo hi : ℕ) (g : ℕ → ℕ) (pos n : ℕ) :
    (randintArr lo hi g pos n).length = n := by
  simp [randintArr]

lemma randint_one_four_mem (g : ℕ → ℕ) (k : ℕ) :
    randint 1 4 g k = 1 ∨ randint 1 4 g k = 2 ∨ randint 1 4 g k = 3 := by
  unfold randint
  have h : g k % 3 < 3 := Nat.mod_lt _ (by norm_num)
  omega

lemma randint_two_four_mem (g : ℕ → ℕ) (k : ℕ) :
    randint 2 4 g k = 2 ∨ randint 2 4 g k = 3 := by
  unfold randint
  have h : g k % 2 < 2 := Nat.mod_lt _ (by norm_num)
  omega

lemma randint_two_four_ne_one (g : ℕ → ℕ) (k : ℕ) : randint 2 4 g k ≠ 1 := by
  rcases randint_two_four_mem g k with h | h <;> omega

lemma count_true_add_count_true_not (l : List Bool) :
    l.count true + (l.map not).count true = l.length := by
  induction l with
  | nil => rfl
  | cons b t ih => cases b <;> simp [List.count_cons] <;> omega

lemma win_if_switching_eq_not_staying (doors : List ℕ) (host : ℕ)
    (hh : host ≠ 1) :
    win_if_switching doors (switchDoorsOf doors host) =
      (win_if_staying doors).map not := by
  induction doors with
  | nil => rfl
  | cons d t ih =>
      by_cases hd : d = 1
      · subst hd
        simpa [win_if_switching, switchDoorsOf, win_if_staying, Ne.symm hh]
          using ih
      · simpa [win_if_switching, switchDoorsOf, win_if_staying, hd] using ih

lemma sampleBatch_snd (g : ℕ → ℕ) (pos n : ℕ) :
    (sampleBatch g pos n).2 = ((sampleBatch g pos n).1).map not :=
  win_if_switching_eq_not_staying _ _ (randint_two_four_ne_one g (pos + n))

lemma sampleBatch_fst_length (g : ℕ → ℕ) (pos n : ℕ) :
    (sampleBatch g pos n).1.length = n := by
  simp [sampleBatch, win_if_staying, length_randintArr]

lemma sampleBatch_counts (g : ℕ → ℕ) (pos n : ℕ) :
    (sampleBatch g pos n).1.count true + (sampleBatch g pos n).2.count true
      = n := by
  rw [sampleBatch_snd]
  rw [count_true_add_count_true_not, sampleBatch_fst_length]

lemma sampleBatch_snd_length (g : ℕ → ℕ) (pos n : ℕ) :
    (sampleBatch g pos n).2.length = n := by
  rw [sampleBatch_snd]
  rw [List.length_map, sampleBatch_fst_length]

lemma getElem_sampleBatch_fst (g : ℕ → ℕ) (pos n i : ℕ)
    (hd : i < (randintArr 1 4 g pos n).length)
    (h1 : i < (sampleBatch g pos n).1.length) :
    (sampleBatch g pos n).1[i] = decide ((randintArr 1 4 g pos n)[i] = 1) := by
  simp [sampleBatch, win_if_staying]

lemma getElem_win_if_switching (doors sd : List ℕ) (i : ℕ)
    (h : i < (win_if_switching doors sd).length)
    (h1 : i < doors.length) (h2 : i < sd.length) :
    (win_if_switching doors sd)[i] = decide (doors[i] = sd[i]) := by
  simp [win_if_switching, List.getElem_zip]

lemma getElem_switchDoorsOf (doors : List ℕ) (host i : ℕ)
    (h : i < (switchDoorsOf doors host).length) (h1 : i < doors.length) :
    (switchDoorsOf doors host)[i]
      = if doors[i] = 1 then host else doors[i] := by
  simp [switchDoorsOf]

/-- Claim C1: in every batch produced by one `sample(n)` call with `n ≥ 1`,
for every trial index `i`, exactly one of `win_if_staying[i]` and
`win_if_switching[i]` is true. -/
theorem partition_invariant (g : ℕ → ℕ) (pos n i : ℕ) (hn : 1 ≤ n)
    (h1 : i < (sampleBatch g pos n).1.length)
    (h2 : i < (sampleBatch g pos n).2.length) :
    ((sampleBatch g pos n).1[i] = true ∧ (sampleBatch g pos n).2[i] = false) ∨
    ((sampleBatch g pos n).1[i] = false ∧ (sampleBatch g pos n).2[i] = true) := by
  have h1' : i < ((sampleBatch g pos n).1.map not).length := by
    rwa [← sampleBatch_snd]
  have key : (sampleBatch g pos n).2[i]
      = !((sampleBatch g pos n).1[i]) := by
    have := sampleBatch_snd g pos n
    calc (sampleBatch g pos n).2[i]
        = ((sampleBatch g pos n).1.map not)[i] := by
          congr 1
      _ = !((sampleBatch g pos n).1[i]) := by
          simp
  cases hb : (sampleBatch g pos n).1[i] with
  | false => right; exact ⟨rfl, by rw [key, hb]; rfl⟩
  | true => left; exact ⟨rfl, by rw [key, hb]; rfl⟩

theorem partition_invariant_witness :
    1 ≤ 1 ∧
    (((sampleBatch (fun _ => 0) 0 1).1.get ⟨0, by decide⟩ = true ∧
      (sampleBatch (fun _ => 0) 0 1).2.get ⟨0, by decide⟩ = false) ∨
     ((sampleBatch (fun _ => 0) 0 1).1.get ⟨0, by decide⟩ = false ∧
      (sampleBatch (fun _ => 0) 0 1).2.get ⟨0, by decide⟩ = true)) :=
  ⟨by decide, partition_invariant (fun _ => 0) 0 1 0 (by decide)
    (by decide) (by decide)⟩

/-- Claim C3: for every batch and every trial index `i`,
`win_if_staying[i] = (winning_doors[i] == 1)` and
`win_if_switching[i] = (winning_doors[i] == switch_doors[i])`, where the
switch door equals `winning_doors[i]` whenever `winning_doors[i] ≠ 1` and is
a door in `{2, 3}` whenever `winning_doors[i] = 1`; hence switching wins
exactly when the prize is not behind door 1. -/
theorem outcome_rules (g : ℕ → ℕ) (pos n i : ℕ)
    (hd : i < (randintArr 1 4 g pos n).length)
    (hs : i < (switchDoorsOf (randintArr 1 4 g pos n)
      (randint 2 4 g (pos + n))).length)
    (h1 : i < (sampleBatch g pos n).1.length)
    (h2 : i < (sampleBatch g pos n).2.length) :
    (sampleBatch g pos n).1[i] = decide ((randintArr 1 4 g pos n)[i] = 1) ∧
    (sampleBatch g pos n).2[i]
      = decide ((randintArr 1 4 g pos n)[i]
          = (switchDoorsOf (randintArr 1 4 g pos n)
              (randint 2 4 g (pos + n)))[i]) ∧
    ((randintArr 1 4 g pos n)[i] ≠ 1 →
      (switchDoorsOf (randintArr 1 4 g pos n) (randint 2 4 g (pos + n)))[i]
        = (randintArr 1 4 g pos n)[i]) ∧
    ((randintArr 1 4 g pos n)[i] = 1 →
      (switchDoorsOf (randintArr 1 4 g pos n) (randint 2 4 g (pos + n)))[i] = 2 ∨
      (switchDoorsOf (randintArr 1 4 g pos n) (randint 2 4 g (pos + n)))[i] = 3) ∧
    ((sampleBatch g pos n).2[i] = true ↔ (randintArr 1 4 g pos n)[i] ≠ 1) := by
  have hsd := getElem_switchDoorsOf (randintArr 1 4 g pos n)
    (randint 2 4 g (pos + n)) i hs hd
  have hsw : (sampleBatch g pos n).2[i]
      = decide ((randintArr 1 4 g pos n)[i]
          = (switchDoorsOf (randintArr 1 4 g pos n)
              (randint 2 4 g (pos + n)))[i]) := by
    have hlen : i < (win_if_switching (randintArr 1 4 g pos n)
        (switchDoorsOf (randintArr 1 4 g pos n)
          (randint 2 4 g (pos + n)))).length := h2
    exact getElem_win_if_switching _ _ i hlen hd hs
  refine ⟨getElem_sampleBatch_fst g pos n i hd h1, hsw, ?_, ?_, ?_⟩
  · intro h
    rw [hsd, if_neg h]
  · intro h
    rw [hsd, if_pos h]
    exact randint_two_four_mem g (pos + n)
  · rw [hsw, hsd]
    by_cases h : (randintArr 1 4 g pos n)[i] = 1
    · rw [if_pos h, h]
      have := randint_two_four_ne_one g (pos + n)
      simp [Ne.symm this, h]
    · rw [if_neg h]
      simp [h]

theorem outcome_rules_witness :
    ((sampleBatch (fun _ => 0) 0 1).1.get ⟨0, by decide⟩
        = decide ((randintArr 1 4 (fun _ => 0) 0 1).get ⟨0, by decide⟩ = 1) ∧
      (sampleBatch (fun _ => 0) 0 1).2.get ⟨0, by decide⟩
        = decide ((randintArr 1 4 (fun _ => 0) 0 1).get ⟨0, by decide⟩
            = (switchDoorsOf (randintArr 1 4 (fun _ => 0) 0 1)
                (randint 2 4 (fun _ => 0) (0 + 1))).get ⟨0, by decide⟩) ∧
      ((randintArr 1 4 (fun _ => 0) 0 1).get ⟨0, by decide⟩ ≠ 1 →
        (switchDoorsOf (randintArr 1 4 (fun _ => 0) 0 1)
            (randint 2 4 (fun _ => 0) (0 + 1))).get ⟨0, by decide⟩
          = (randintArr 1 4 (fun _ => 0) 0 1).get ⟨0, by decide⟩) ∧
      ((randintArr 1 4 (fun _ => 0) 0 1).get ⟨0, by decide⟩ = 1 →
        (switchDoorsOf (randintArr 1 4 (fun _ => 0) 0 1)
            (randint 2 4 (fun _ => 0) (0 + 1))).get ⟨0, by decide⟩ = 2 ∨
        (switchDoorsOf (randintArr 1 4 (fun _ => 0) 0 1)
            (randint 2 4 (fun _ => 0) (0 + 1))).get ⟨0, by decide⟩ = 3) ∧
      ((sampleBatch (fun _ => 0) 0 1).2.get ⟨0, by decide⟩ = true ↔
        (randintArr 1 4 (fun _ => 0) 0 1).get ⟨0, by decide⟩ ≠ 1)) :=
  outcome_rules (fun _ => 0) 0 1 0 (by decide) (by decide) (by decide)
    (by decide)

/-- Claim C4 counterexample: `sample(0)` succeeds (numpy returns empty arrays
for size 0), returning the unchanged zero counters, an advanced cursor and an
empty batch — it does not fail with `InvalidArgument` as the claim states. -/
theorem sample_zero_succeeds :
    Simulation.init.sample (fun _ => 0) 0 0 =
      ({ samples := 0, num_wins_if_staying := 0, num_wins_if_switching := 0 },
       1, Except.ok ([], [])) := by
  rfl

/-- Claim C4 (amended): `sample(n)` fails only for negative `n` — with
numpy's `ValueError` for negative array dimensions, not an `InvalidArgument`
check of its own — and succeeds for every `n ≥ 0`; in particular
`sample(-5)` fails while `sample(0)` succeeds with an empty batch. -/
theorem sample_error_iff_negative (sim : Simulation) (g : ℕ → ℕ) (pos : ℕ)
    (n : ℤ) :
    (exceptOk (sim.sample g pos n).2.2 = false ↔ n < 0) ∧
    exceptOk (sim.sample g pos (-5)).2.2 = false ∧
    exceptOk (sim.sample g pos 0).2.2 = true ∧
    (sim.sample g pos 0).2.2 = Except.ok ([], []) := by
  refine ⟨?_, ?_, ?_, ?_⟩
  · by_cases h : n < 0
    · simp [Simulation.sample, h, exceptOk]
    · simp [Simulation.sample, h, exceptOk]
  · simp [Simulation.sample, exceptOk]
  · simp [Simulation.sample, exceptOk]
  · rfl

/-- Claim C5 counterexample: the failing call `sample(-5)` on a fresh
simulation is not atomic — it mutates `samples` from 0 to -5 before the
numpy error is raised, so the accumulator is not as it was before the
call. -/
theorem failed_sample_mutates_state :
    exceptOk (Simulation.init.sample (fun _ => 0) 0 (-5)).2.2 = false ∧
    (Simulation.init.sample (fun _ => 0) 0 (-5)).1.samples = -5 ∧
    Simulation.init.samples = 0 := by
  decide

/-- Claim C5 (amended): a failing `sample(n)` call (that is, `n < 0`) raises
only after line 36 has executed, so it leaves `samples` increased by `n`
while the two win counters and the RNG cursor are unchanged. -/
theorem failed_sample_effect (sim : Simulation) (g : ℕ → ℕ) (pos : ℕ)
    (n : ℤ) (h : n < 0) :
    sim.sample g pos n =
      ({ sim with samples := sim.samples + n }, pos,
        Except.error "numpy ValueError: negative dimensions are not allowed") := by
  simp [Simulation.sample, h]

theorem failed_sample_effect_witness :
    (-5 : ℤ) < 0 ∧
    Simulation.init.sample (fun _ => 0) 0 (-5) =
      ({ Simulation.init with samples := Simulation.init.samples + (-5) }, 0,
        Except.error "numpy ValueError: negative dimensions are not allowed") :=
  ⟨by decide, failed_sample_effect Simulation.init (fun _ => 0) 0 (-5)
    (by decide)⟩

/-- Claim C7: folding a batch of length `n` is pure accumulation —
`samples` grows by exactly `n`, each win counter by exactly the number of
true entries of its outcome array — and folding two batches in sequence
equals folding the concatenated batch once. -/
theorem fold_accumulation (sim : Simulation) (sA wA sB wB : List Bool) :
    (sim.fold sA wA).samples = sim.samples + sA.length ∧
    (sim.fold sA wA).num_wins_if_staying
      = sim.num_wins_if_staying + sA.count true ∧
    (sim.fold sA wA).num_wins_if_switching
      = sim.num_wins_if_switching + wA.count true ∧
    (sim.fold sA wA).fold sB wB = sim.fold (sA ++ sB) (wA ++ wB) := by
  refine ⟨rfl, rfl, rfl, ?_⟩
  simp only [Simulation.fold, List.count_append, List.length_append,
    Simulation.mk.injEq]
  refine ⟨?_, ?_, ?_⟩
  · push_cast
    ring
  · omega
  · omega

lemma sample_ok_eq (sim : Simulation) (g : ℕ → ℕ) (pos : ℕ) (n : ℤ)
    (hn : 0 ≤ n) :
    sim.sample g pos n =
      (sim.fold (sampleBatch g pos n.toNat).1 (sampleBatch g pos n.toNat).2,
       pos + n.toNat + 1, Except.ok (sampleBatch g pos n.toNat)) := by
  have hlt : ¬ n < 0 := not_lt.mpr hn
  simp only [Simulation.sample, if_neg hlt, Simulation.fold,
    sampleBatch_fst_length]
  have : ((n.toNat : ℤ)) = n := Int.toNat_of_nonneg hn
  rw [this]

lemma sample_preserves_conservation (sim : Simulation) (g : ℕ → ℕ)
    (pos : ℕ) (n : ℤ) (hn : 0 ≤ n)
    (h : (sim.num_wins_if_staying : ℤ) + sim.num_wins_if_switching
      = sim.samples) :
    ((sim.sample g pos n).1.num_wins_if_staying : ℤ)
      + (sim.sample g pos n).1.num_wins_if_switching
      = (sim.sample g pos n).1.samples := by
  rw [sample_ok_eq sim g pos n hn]
  have hc := sampleBatch_counts g pos n.toNat
  have hl := sampleBatch_fst_length g pos n.toNat
  simp only [Simulation.fold]
  push_cast
  omega

lemma runSamples_conservation (g : ℕ → ℕ) (ns : List ℤ) :
    ∀ (sim : Simulation) (pos : ℕ), (∀ n ∈ ns, 0 ≤ n) →
      (sim.num_wins_if_staying : ℤ) + sim.num_wins_if_switching
        = sim.samples →
      ((runSamples g (sim, pos) ns).1.num_wins_if_staying : ℤ)
        + (runSamples g (sim, pos) ns).1.num_wins_if_switching
        = (runSamples g (sim, pos) ns).1.samples := by
  induction ns with
  | nil => intro sim pos _ h; exact h
  | cons n ns ih =>
      intro sim pos hall h
      have hn : 0 ≤ n := hall n (List.mem_cons_self n ns)
      have hall' : ∀ m ∈ ns, 0 ≤ m := fun m hm =>
        hall m (List.mem_cons_of_mem n hm)
      exact ih _ _ hall' (sample_preserves_conservation sim g pos n hn h)

/-- Claim C2: after any finite sequence of successful `sample` calls from a
freshly constructed `Simulation`, the accumulator satisfies
`num_wins_if_staying + num_wins_if_switching = samples`. -/
theorem conservation_invariant (g : ℕ → ℕ) (pos : ℕ) (ns : List ℤ)
    (h : ∀ n ∈ ns, 0 ≤ n) :
    ((runSamples g (Simulation.init, pos) ns).1.num_wins_if_staying : ℤ)
      + (runSamples g (Simulation.init, pos) ns).1.num_wins_if_switching
      = (runSamples g (Simulation.init, pos) ns).1.samples :=
  runSamples_conservation g ns Simulation.init pos h (by rfl)

theorem conservation_invariant_witness :
    (∀ n ∈ ([2, 3] : List ℤ), 0 ≤ n) ∧
    ((runSamples (fun _ => 0) (Simulation.init, 0)
        [2, 3]).1.num_wins_if_staying : ℤ)
      + (runSamples (fun _ => 0) (Simulation.init, 0)
          [2, 3]).1.num_wins_if_switching
      = (runSamples (fun _ => 0) (Simulation.init, 0) [2, 3]).1.samples :=
  ⟨by decide, conservation_invariant (fun _ => 0) 0 [2, 3] (by decide)⟩

/-- Claim C8: batch generation is deterministic in the RNG stream — two
calls reading identical streams produce identical outcome arrays — and a
successful call has no effect beyond folding the generated batch into the
accumulator and advancing the RNG cursor. -/
theorem determinism_and_purity (sim : Simulation) (g1 g2 : ℕ → ℕ)
    (pos : ℕ) (n : ℤ) (hg : ∀ k, g1 k = g2 k) (hn : 0 ≤ n) :
    sim.sample g1 pos n = sim.sample g2 pos n ∧
    sim.sample g1 pos n =
      (sim.fold (sampleBatch g1 pos n.toNat).1 (sampleBatch g1 pos n.toNat).2,
       pos + n.toNat + 1, Except.ok (sampleBatch g1 pos n.toNat)) := by
  have hfun : g1 = g2 := funext hg
  subst hfun
  exact ⟨rfl, sample_ok_eq sim g1 pos n hn⟩

theorem determinism_and_purity_witness :
    (∀ k : ℕ, (fun _ => 0) k = (fun _ => (0 : ℕ)) k) ∧ (0 : ℤ) ≤ 1 ∧
    (Simulation.init.sample (fun _ => 0) 0 1
        = Simulation.init.sample (fun _ => 0) 0 1 ∧
      Simulation.init.sample (fun _ => 0) 0 1 =
        (Simulation.init.fold (sampleBatch (fun _ => 0) 0 (1 : ℤ).toNat).1
          (sampleBatch (fun _ => 0) 0 (1 : ℤ).toNat).2,
         0 + (1 : ℤ).toNat + 1,
         Except.ok (sampleBatch (fun _ => 0) 0 (1 : ℤ).toNat))) :=
  ⟨fun _ => rfl, by decide,
    determinism_and_purity Simulation.init (fun _ => 0) (fun _ => 0) 0 1
      (fun _ => rfl) (by decide)⟩

/-- Claim C6: with zero samples, the result rendering raises its error
explicitly (no division is attempted); with positive samples after any run
of successful calls, both derived win probabilities are numbers in
`[0, 1]`. -/
theorem not_ready_and_probability_bounds (g : ℕ → ℕ) (pos : ℕ)
    (ns : List ℤ) (h : ∀ n ∈ ns, 0 ≤ n)
    (hpos : 0 < (runSamples g (Simulation.init, pos) ns).1.samples) :
    (∀ sim : Simulation, sim.samples = 0 →
        sim.plot_results
          = Except.error "No results to plot. Must sample first.") ∧
    Simulation.init.plot_results
      = Except.error "No results to plot. Must sample first." ∧
    (0 ≤ (runSamples g (Simulation.init, pos) ns).1.stay_win_probability ∧
      (runSamples g (Simulation.init, pos) ns).1.stay_win_probability ≤ 1) ∧
    (0 ≤ (runSamples g (Simulation.init, pos) ns).1.switch_win_probability ∧
      (runSamples g (Simulation.init, pos) ns).1.switch_win_probability ≤ 1) := by
  have hcons := runSamples_conservation g ns Simulation.init pos h (by rfl)
  set final := (runSamples g (Simulation.init, pos) ns).1 with hfinal
  have hsQ : (0 : ℚ) < ((final.samples : ℤ) : ℚ) := by exact_mod_cast hpos
  have hstay_le : (final.num_wins_if_staying : ℤ) ≤ final.samples := by omega
  have hswitch_le : (final.num_wins_if_switching : ℤ) ≤ final.samples := by
    omega
  refine ⟨?_, ?_, ⟨?_, ?_⟩, ⟨?_, ?_⟩⟩
  · intro sim h0
    simp [Simulation.plot_results, h0]
  · rfl
  · exact div_nonneg (Nat.cast_nonneg _) (le_of_lt hsQ)
  · rw [Simulation.stay_win_probability, div_le_one hsQ]
    exact_mod_cast hstay_le
  · exact div_nonneg (Nat.cast_nonneg _) (le_of_lt hsQ)
  · rw [Simulation.switch_win_probability, div_le_one hsQ]
    exact_mod_cast hswitch_le

theorem not_ready_and_probability_bounds_witness :
    (∀ n ∈ ([4] : List ℤ), 0 ≤ n) ∧
    0 < (runSamples (fun _ => 0) (Simulation.init, 0) [4]).1.samples ∧
    ((∀ sim : Simulation, sim.samples = 0 →
        sim.plot_results
          = Except.error "No results to plot. Must sample first.") ∧
     Simulation.init.plot_results
       = Except.error "No results to plot. Must sample first." ∧
     (0 ≤ (runSamples (fun _ => 0)
          (Simulation.init, 0) [4]).1.stay_win_probability ∧
       (runSamples (fun _ => 0)
          (Simulation.init, 0) [4]).1.stay_win_probability ≤ 1) ∧
     (0 ≤ (runSamples (fun _ => 0)
          (Simulation.init, 0) [4]).1.switch_win_probability ∧
       (runSamples (fun _ => 0)
          (Simulation.init, 0) [4]).1.switch_win_probability ≤ 1)) :=
  ⟨by decide, by decide,
    not_ready_and_probability_bounds (fun _ => 0) 0 [4] (by decide)
      (by decide)⟩

/-- Claim C9: for any RNG stream whose five prize-door draws are
`[1, 2, 3, 1, 2]`, the batch is `win_if_staying = [T,F,F,T,F]` with
`win_if_switching` its pointwise complement `[F,T,T,F,T]`, and folding it
into a fresh simulation gives `num_wins_if_staying = 2`,
`num_wins_if_switching = 3`, `samples = 5` and a derived stay win
probability of `0.4`. -/
theorem scenario_five_trials (g : ℕ → ℕ) (pos : ℕ)
    (hdoors : randintArr 1 4 g pos 5 = [1, 2, 3, 1, 2]) :
    sampleBatch g pos 5 = ([true, false, false, true, false],
      [false, true, true, false, true]) ∧
    (Simulation.init.sample g pos 5).1 =
      { samples := 5, num_wins_if_staying := 2, num_wins_if_switching := 3 } ∧
    (Simulation.init.sample g pos 5).1.stay_win_probability = 0.4 := by
  have hb : sampleBatch g pos 5 = ([true, false, false, true, false],
      [false, true, true, false, true]) := by
    rcases randint_two_four_mem g (pos + 5) with h | h <;>
      · unfold sampleBatch
        rw [hdoors, h]
        rfl
  have hs : (Simulation.init.sample g pos 5).1 =
      { samples := 5, num_wins_if_staying := 2,
        num_wins_if_switching := 3 } := by
    rw [sample_ok_eq Simulation.init g pos 5 (by norm_num)]
    show Simulation.init.fold (sampleBatch g pos 5).1 (sampleBatch g pos 5).2
      = _
    rw [hb]
    rfl
  refine ⟨hb, hs, ?_⟩
  rw [hs]
  norm_num [Simulation.stay_win_probability]

theorem scenario_five_trials_witness :
    randintArr 1 4 (fun i => i % 3) 0 5 = [1, 2, 3, 1, 2] ∧
    (sampleBatch (fun i => i % 3) 0 5 = ([true, false, false, true, false],
        [false, true, true, false, true]) ∧
      (Simulation.init.sample (fun i => i % 3) 0 5).1 =
        { samples := 5, num_wins_if_staying := 2,
          num_wins_if_switching := 3 } ∧
      (Simulation.init.sample (fun i => i % 3) 0 5).1.stay_win_probability
        = 0.4) :=
  ⟨by decide, scenario_five_trials (fun i => i % 3) 0 (by decide)⟩

/-- Claim C10: one call to `sample(n)` draws exactly one host-reveal scalar,
unconditionally (the cursor always advances by `n + 1`), and that shared
scalar is the switch door of every trial whose prize door is 1; the outcome
arrays are nevertheless independent of the host draw — any two streams that
agree on the `n` prize-door positions generate identical batches. -/
theorem shared_host_draw (sim : Simulation) (g g2 : ℕ → ℕ) (pos n : ℕ)
    (m : ℤ) (doors : List ℕ) (host i : ℕ) (hm : 0 ≤ m)
    (hagree : ∀ k, k < n → g (pos + k) = g2 (pos + k))
    (hi : i < doors.length)
    (hi2 : i < (switchDoorsOf doors host).length)
    (hprize : doors[i] = 1) :
    (sim.sample g pos m).2.1 = pos + m.toNat + 1 ∧
    (switchDoorsOf doors host)[i] = host ∧
    sampleBatch g pos n = sampleBatch g2 pos n := by
  refine ⟨?_, ?_, ?_⟩
  · rw [sample_ok_eq sim g pos m hm]
  · rw [getElem_switchDoorsOf doors host i hi2 hi, if_pos hprize]
  · have hdoors : randintArr 1 4 g pos n = randintArr 1 4 g2 pos n := by
      unfold randintArr
      apply List.map_congr_left
      intro a ha
      unfold randint
      rw [hagree a (List.mem_range.mp ha)]
    unfold sampleBatch
    rw [hdoors]
    rw [win_if_switching_eq_not_staying _ _ (randint_two_four_ne_one g
      (pos + n))]
    rw [win_if_switching_eq_not_staying _ _ (randint_two_four_ne_one g2
      (pos + n))]

theorem shared_host_draw_witness :
    (0 : ℤ) ≤ 2 ∧
    (∀ k, k < 2 → (fun _ => (0 : ℕ)) (0 + k)
      = (fun j => if j < 2 then 0 else 1) (0 + k)) ∧
    ([1, 3] : List ℕ).get ⟨0, by decide⟩ = 1 ∧
    ((Simulation.init.sample (fun _ => 0) 0 2).2.1 = 0 + (2 : ℤ).toNat + 1 ∧
      (switchDoorsOf [1, 3] 2).get ⟨0, by decide⟩ = 2 ∧
      sampleBatch (fun _ => 0) 0 2
        = sampleBatch (fun j => if j < 2 then 0 else 1) 0 2) :=
  ⟨by decide, by intro k hk; simp [hk], by decide,
    shared_host_draw Simulation.init (fun _ => 0)
      (fun j => if j < 2 then 0 else 1) 0 2 2 [1, 3] 2 0 (by decide)
      (by intro k hk; simp [hk]) (by decide) (by decide) (by decide)⟩

end MontyHall
